import Mathlib

/-!
Verification development for the Planora/Zenith productivity application.

The definitions below are a shallow embedding of the TypeScript source:
data shapes from `src/types.ts`, the state handlers and derived statistics
from `src/App.tsx` and the unnamed application module, and the advice
service from `src/geminiService.ts`.  JavaScript numbers that stay on
integer values are modelled by `Nat`/`Int`; the two fractional
computations (`lifeScore`, `dayCompletion`) are modelled over `ℚ` with
`Math.round` as `jsRound`.  JavaScript objects used as string-keyed maps
(`Habit.history`, the reflections record) are modelled as association
lists, where `histGet` reproduces the truthiness of `h.history[date]`
(an absent key reads as `undefined`, i.e. false).
-/

namespace Planora

/-- `Priority` enum from `src/types.ts`. -/
inductive Priority
  | low
  | medium
  | high
deriving DecidableEq

/-- `Status` enum from `src/types.ts`. -/
inductive Status
  | pending
  | inProgress
  | completed
deriving DecidableEq

/-- `Recurrence` enum from `src/types.ts`. -/
inductive Recurrence
  | none
  | daily
  | weekly
deriving DecidableEq

/-- Theme preference, the `'light' | 'dark'` union in `src/types.ts`. -/
inductive Theme
  | light
  | dark
deriving DecidableEq

/-- `Task` interface from `src/types.ts`.  Optional fields (`notes?`,
`actualEndTime?`, `estimatedMinutes?`) are modelled with `Option`. -/
structure Task where
  id : String
  title : String
  startTime : String
  endTime : String
  notes : Option String := Option.none
  priority : Priority
  status : Status
  isAllDay : Bool
  date : String
  recurrence : Recurrence
  actualEndTime : Option String := Option.none
  estimatedMinutes : Option Nat := Option.none
deriving DecidableEq

/-- `Reflection` interface from `src/types.ts`. -/
structure Reflection where
  date : String
  well : String
  improvement : String
  journal : String
deriving DecidableEq

/-- `Habit` interface (the variant used by the stats code): `history` is a
string-keyed boolean record, modelled as an association list. -/
structure Habit where
  id : String
  name : String
  icon : String := ""
  category : String := ""
  history : List (String × Bool)
  createdAt : String
deriving DecidableEq

/-- `UserStats` interface: the derived gamification snapshot. -/
structure UserStats where
  xp : Nat
  level : Int
  streak : Nat
  lifeScore : Int
deriving DecidableEq

/-- `AppState`: the persisted aggregate (tasks, reflections-by-date,
habits, theme). -/
structure AppState where
  tasks : List Task
  reflections : List (String × Reflection)
  habits : List Habit
  theme : Theme
deriving DecidableEq

/-- Truthiness of `h.history[date]` in JavaScript: an absent key reads as
`undefined` which is falsy, a present key reads its boolean value. -/
def histGet (l : List (String × Bool)) (d : String) : Bool :=
  (l.lookup d).getD false

/-- `Object.values(h.history).filter(v => v).length`: the number of
`true` entries of a history record. -/
def trueCnt (l : List (String × Bool)) : Nat :=
  ((l.map Prod.snd).filter (fun v => v)).length

/-- JavaScript `Math.round`: round half toward positive infinity. -/
def jsRound (q : ℚ) : Int :=
  ⌊q + 1 / 2⌋

/-- The body of the `last7Days.forEach` accumulation in the `stats` memo:
one day's contribution to `consistencySum`.  A day with no tasks and no
habits is skipped (`return`), otherwise the ratio of done units over
total units is added. -/
def consistencyStep (tasks : List Task) (habits : List Habit) (acc : ℚ) (date : String) : ℚ :=
  let dayTasks := tasks.filter (fun t => t.date = date)
  let totalDayHabits := habits.length
  if dayTasks.length + totalDayHabits = 0 then acc
  else
    let taskDone := (dayTasks.filter (fun t => t.status = Status.completed)).length
    let habitsDone := (habits.filter (fun h => histGet h.history date)).length
    acc + ((taskDone : ℚ) + (habitsDone : ℚ)) / ((dayTasks.length : ℚ) + (totalDayHabits : ℚ))

/-- `consistencySum`: fold the per-day contribution over the 7-day
window. -/
def consistencySumOf (tasks : List Task) (habits : List Habit) (last7 : List String) : ℚ :=
  last7.foldl (consistencyStep tasks habits) 0

/-- The `stats` memo of the application component: experience points,
level, the constant streak placeholder, and the 7-day rolling life score.
`last7` stands for the `last7Days` array of date strings computed from
the current clock (today first, walking backward). -/
def statsOf (tasks : List Task) (habits : List Habit) (last7 : List String) : UserStats :=
  let completedTasks := (tasks.filter (fun t => t.status = Status.completed)).length
  let completedHabits := habits.foldl (fun acc h => acc + trueCnt h.history) 0
  let xp := completedTasks * 25 + completedHabits * 10
  let level := ⌊(xp : ℚ) / 250⌋ + 1
  let lifeScore := jsRound (consistencySumOf tasks habits last7 / 7 * 100)
  { xp := xp, level := level, streak := 5, lifeScore := lifeScore }

/-- `toggleTaskStatus` from `src/App.tsx`: flip the matching task between
completed and pending (an in-progress task becomes completed). -/
def toggleTaskStatus (tasks : List Task) (i : String) : List Task :=
  tasks.map (fun t =>
    if t.id = i then
      { t with status := if t.status = Status.completed then Status.pending else Status.completed }
    else t)

/-- The inline status-toggle onClick of the unnamed application module:
`isNowDone` is computed once from the clicked task, then every task with
the clicked id is set to the corresponding status. -/
def toggleTaskClick (tasks : List Task) (task : Task) : List Task :=
  let isNowDone := task.status ≠ Status.completed
  tasks.map (fun t =>
    if t.id = task.id then
      { t with status := if isNowDone then Status.completed else Status.pending }
    else t)

/-- The `filteredTasks` memo: the selected day's tasks sorted by start
time (`a.startTime.localeCompare(b.startTime)`). -/
def filteredTasksOf (tasks : List Task) (selectedDate : String) : List Task :=
  (tasks.filter (fun t => t.date = selectedDate)).mergeSort
    (fun a b => a.startTime ≤ b.startTime)

/-- The `dayCompletion` memo: percentage of the selected day's tasks and
habits that are done. -/
def dayCompletion (tasks : List Task) (habits : List Habit) (selectedDate : String) : Int :=
  let filteredTasks := filteredTasksOf tasks selectedDate
  let total := filteredTasks.length + habits.length
  if total = 0 then 0
  else
    let done := (filteredTasks.filter (fun t => t.status = Status.completed)).length
      + (habits.filter (fun h => histGet h.history selectedDate)).length
    jsRound ((done : ℚ) / (total : ℚ) * 100)

/-- `Partial<Task>`: every field optional, `Option.none` meaning the key
is absent from the JavaScript object. -/
structure PartialTask where
  id : Option String := Option.none
  title : Option String := Option.none
  startTime : Option String := Option.none
  endTime : Option String := Option.none
  notes : Option String := Option.none
  priority : Option Priority := Option.none
  status : Option Status := Option.none
  isAllDay : Option Bool := Option.none
  date : Option String := Option.none
  recurrence : Option Recurrence := Option.none
  actualEndTime : Option String := Option.none
  estimatedMinutes : Option Nat := Option.none
deriving DecidableEq

/-- JavaScript `x || d` on an optional string: absent or empty falls back
to the default. -/
def jsOrStr (o : Option String) (d : String) : String :=
  match o with
  | Option.none => d
  | Option.some s => if s = "" then d else s

/-- `handleAddTask` from `src/App.tsx`: build a task from defaults, then
spread `...taskData` last, so any field present in `taskData` overrides
the corresponding default (including `status` and `date`).  `gid` is the
value produced by `generateId()`. -/
def handleAddTask (gid selectedDate : String) (taskData : PartialTask)
    (tasks : List Task) : List Task :=
  tasks ++ [{
    id := taskData.id.getD gid
    title := taskData.title.getD "Untitled Task"
    startTime := taskData.startTime.getD "09:00"
    endTime := taskData.endTime.getD "10:00"
    notes := Option.some (taskData.notes.getD "")
    priority := taskData.priority.getD Priority.medium
    status := taskData.status.getD Status.pending
    isAllDay := taskData.isAllDay.getD false
    date := taskData.date.getD selectedDate
    recurrence := taskData.recurrence.getD Recurrence.none
    actualEndTime := taskData.actualEndTime
    estimatedMinutes := taskData.estimatedMinutes }]

/-- The add branch of `handleSaveTask` in the unnamed application module:
an explicit object literal with `status: Status.PENDING` and no spread of
`taskData`. -/
def handleSaveTaskNew (gid selectedDate : String) (taskData : PartialTask)
    (tasks : List Task) : List Task :=
  tasks ++ [{
    id := gid
    title := jsOrStr taskData.title "New Objective"
    startTime := jsOrStr taskData.startTime "09:00"
    endTime := jsOrStr taskData.endTime "10:00"
    priority := taskData.priority.getD Priority.medium
    status := Status.pending
    isAllDay := taskData.isAllDay.getD false
    date := selectedDate
    recurrence := taskData.recurrence.getD Recurrence.none }]

/-- The data object built by the task-modal form submission handler: the
form only ever supplies `title`, `startTime`, `endTime`, `priority`,
`notes` and `isAllDay` — never `status`, `date` or `id`. -/
def taskFormData (title startTime endTime : String) (priority : Priority)
    (notes : String) (isAllDay : Bool) : PartialTask :=
  { title := Option.some title
    startTime := Option.some startTime
    endTime := Option.some endTime
    priority := Option.some priority
    notes := Option.some notes
    isAllDay := Option.some isAllDay }

/-- The shape of a successfully parsed persisted blob: each constituent
may be missing from the parsed JSON (`Option.none` models a falsy /
absent property). -/
structure ParsedBlob where
  tasks : Option (List Task) := Option.none
  reflections : Option (List (String × Reflection)) := Option.none
  habits : Option (List Habit) := Option.none
  theme : Option Theme := Option.none
deriving DecidableEq

/-- The initial component state: empty collections and the light theme
(the `useState` initialisers). -/
def defaultAppState : AppState :=
  { tasks := [], reflections := [], habits := [], theme := Theme.light }

/-- The startup restore effect: `localStorage.getItem` yields `none`
(missing) or a string whose `JSON.parse` either fails (`Except.error`,
caught and logged by the `catch`) or yields a blob whose truthy fields
overwrite the initial state.  Returns the resulting state together with
the console-error log. -/
def restoreState (init : AppState) (saved : Option (Except String ParsedBlob)) :
    AppState × List String :=
  match saved with
  | Option.none => (init, [])
  | Option.some (Except.error e) => (init, ["Restore failed: " ++ e])
  | Option.some (Except.ok p) =>
    ({ tasks := p.tasks.getD init.tasks
       reflections := p.reflections.getD init.reflections
       habits := p.habits.getD init.habits
       theme := p.theme.getD init.theme }, [])

/-- Truthiness of `process.env.API_KEY`: absent or empty is falsy. -/
def apiKeyTruthy (k : Option String) : Bool :=
  match k with
  | Option.none => false
  | Option.some s => !(s = "")

/-- The fixed fallback returned by `analyzeSchedule` when no API key is
configured (`src/geminiService.ts`). -/
def noKeyMsg : String :=
  "AI Insights are unavailable. Please ensure your API key is configured in the environment."

/-- The fixed fallback returned by `analyzeSchedule` when the generation
call throws (`src/geminiService.ts`). -/
def offlineMsg : String :=
  "The AI coach is currently offline. Please check your connection or try again later."

/-- The prompt summary built by `analyzeSchedule`: the selected day's
tasks formatted one per line. -/
def taskSummary (tasks : List Task) (date : String) : String :=
  String.intercalate "\n"
    ((tasks.filter (fun t => t.date = date)).map (fun t =>
      "- [" ++ t.startTime ++ "-" ++ t.endTime ++ "] " ++ t.title))

/-- `analyzeSchedule` from `src/geminiService.ts`.  The outbound
generation call is external; its outcome is passed in as `callResult`
(`Except.error` models a thrown/rejected call).  With no truthy API key
the function returns `noKeyMsg` before the call is ever made; a failed
call is caught and mapped to `offlineMsg`; a successful call returns the
generated text.  The function is total: no exception propagates. -/
def analyzeSchedule (apiKey : Option String) (tasks : List Task) (date : String)
    (callResult : Except String String) : String :=
  if apiKeyTruthy apiKey = false then noKeyMsg
  else
    match callResult with
    | Except.ok text => text
    | Except.error _ => offlineMsg

/-- Modelled from the spec wording of the level rule, for comparison with
the computed stats: `level = floor(xp/250) + 1`. -/
def level_spec (xp : Nat) : Int :=
  ⌊(xp : ℚ) / 250⌋ + 1

/-- A daily-recurring sample task used as concrete input. -/
def runTask : Task :=
  { id := "a1", title := "Morning Run", startTime := "07:00", endTime := "08:00",
    priority := Priority.medium, status := Status.pending, isAllDay := false,
    date := "2024-01-01", recurrence := Recurrence.daily }

/-- C4: the computed level is `floor(xp/250) + 1` for the xp produced by
the stats computation, and the formula takes the spec's sample values:
`0 ↦ 1`, `250 ↦ 2`, `499 ↦ 2`, `500 ↦ 3`. -/
theorem level_eq_floor_formula :
    (∀ (tasks : List Task) (habits : List Habit) (last7 : List String),
      (statsOf tasks habits last7).level = level_spec (statsOf tasks habits last7).xp) ∧
    level_spec 0 = 1 ∧ level_spec 250 = 2 ∧ level_spec 499 = 2 ∧ level_spec 500 = 3 := by
  have h0 : (⌊((0 : Nat) : ℚ) / 250⌋ : Int) = 0 := by rw [Int.floor_eq_iff] <;> norm_num
  have h250 : (⌊((250 : Nat) : ℚ) / 250⌋ : Int) = 1 := by rw [Int.floor_eq_iff] <;> norm_num
  have h499 : (⌊((499 : Nat) : ℚ) / 250⌋ : Int) = 1 := by rw [Int.floor_eq_iff] <;> norm_num
  have h500 : (⌊((500 : Nat) : ℚ) / 250⌋ : Int) = 2 := by rw [Int.floor_eq_iff] <;> norm_num
  exact ⟨fun tasks habits last7 => rfl,
    by rw [level_spec, h0]; omega, by rw [level_spec, h250]; omega,
    by rw [level_spec, h499]; omega, by rw [level_spec, h500]; omega⟩

/-- C9: every form-submitted task creation appends one task whose status
is pending, whatever values the form supplied; the unnamed module's save
handler even forces pending status for arbitrary partial task data. -/
theorem new_task_status_pending (title startTime endTime : String)
    (priority : Priority) (notes : String) (isAllDay : Bool)
    (gid selectedDate : String) (tasks : List Task) (taskData : PartialTask) :
    (∃ nt : Task, handleAddTask gid selectedDate
        (taskFormData title startTime endTime priority notes isAllDay) tasks
          = tasks ++ [nt] ∧ nt.status = Status.pending) ∧
    (∃ nt : Task, handleSaveTaskNew gid selectedDate taskData tasks
          = tasks ++ [nt] ∧ nt.status = Status.pending) := by
  exact ⟨⟨_, rfl, rfl⟩, ⟨_, rfl, rfl⟩⟩

/-- C10: the status toggle is a pure frame update — the list keeps its
length and order, positions other than the target are untouched, every
non-status field of the target is untouched, and the target's new status
is pending when it was completed and completed otherwise. -/
theorem toggle_frame_effect (tasks : List Task) (i : String) (k : Nat) :
    (toggleTaskStatus tasks i).length = tasks.length ∧
    ((tasks[k]? = Option.none ∧ (toggleTaskStatus tasks i)[k]? = Option.none) ∨
     ∃ t t' : Task, tasks[k]? = Option.some t ∧ (toggleTaskStatus tasks i)[k]? = Option.some t' ∧
       t'.id = t.id ∧ t'.title = t.title ∧ t'.startTime = t.startTime ∧
       t'.endTime = t.endTime ∧ t'.notes = t.notes ∧ t'.priority = t.priority ∧
       t'.isAllDay = t.isAllDay ∧ t'.date = t.date ∧ t'.recurrence = t.recurrence ∧
       t'.actualEndTime = t.actualEndTime ∧ t'.estimatedMinutes = t.estimatedMinutes ∧
       (t.id ≠ i → t' = t) ∧
       (t.id = i → t'.status
          = if t.status = Status.completed then Status.pending else Status.completed)) := by
  refine ⟨by simp [toggleTaskStatus], ?_⟩
  rcases h : tasks[k]? with _ | t
  · exact Or.inl ⟨rfl, by simp [toggleTaskStatus, h]⟩
  · by_cases hid : t.id = i
    · refine Or.inr ⟨t,
        { t with status := if t.status = Status.completed then Status.pending
                           else Status.completed }, rfl, ?_, ?_⟩
      · simp [toggleTaskStatus, h, hid]
      · simp [hid]
    · refine Or.inr ⟨t, t, rfl, ?_, ?_⟩
      · simp [toggleTaskStatus, h, hid]
      · simp [hid]

/-- C1 counterexample: toggling the daily-recurring task `runTask` to
completed produces only the status change — the collection still has one
element and contains no task dated `2024-01-02`, in both toggle
implementations. -/
theorem toggleCompleted_creates_no_successor_cex :
    runTask.recurrence = Recurrence.daily ∧ runTask.date = "2024-01-01" ∧
    toggleTaskStatus [runTask] "a1" = [{ runTask with status := Status.completed }] ∧
    toggleTaskClick [runTask] runTask = [{ runTask with status := Status.completed }] ∧
    (toggleTaskStatus [runTask] "a1").length = 1 ∧
    ((toggleTaskStatus [runTask] "a1").filter (fun t => t.date = "2024-01-02")).length = 0 := by
  refine ⟨rfl, rfl, ?_, ?_, ?_, ?_⟩ <;>
    simp [toggleTaskStatus, toggleTaskClick, runTask]

/-- C1 amended: a status toggle never inserts a task — the collection
keeps its length and the (title, date) pair of every position, so no
occurrence for the next date can ever be created by toggling. -/
theorem toggle_inserts_nothing (tasks : List Task) (i : String) :
    (toggleTaskStatus tasks i).length = tasks.length ∧
    (toggleTaskStatus tasks i).map (fun t => (t.title, t.date))
      = tasks.map (fun t => (t.title, t.date)) := by
  refine ⟨by simp [toggleTaskStatus], ?_⟩
  simp only [toggleTaskStatus, List.map_map]
  refine List.map_congr_left (fun t _ => ?_)
  by_cases hid : t.id = i <;> simp [hid]

/-- C7: with a missing or malformed persisted blob, the restore step
keeps the initial state — empty tasks, habits and reflections and the
light theme — and the malformed case only logs. -/
theorem restore_fallback_defaults :
    (restoreState defaultAppState Option.none).1 = defaultAppState ∧
    (∀ e : String,
      (restoreState defaultAppState (Option.some (Except.error e))).1 = defaultAppState ∧
      (restoreState defaultAppState (Option.some (Except.error e))).2 ≠ []) ∧
    defaultAppState.tasks = [] ∧ defaultAppState.habits = [] ∧
    defaultAppState.reflections = [] ∧ defaultAppState.theme = Theme.light := by
  refine ⟨rfl, fun e => ⟨rfl, by simp [restoreState]⟩, rfl, rfl, rfl, rfl⟩

/-- C8: the advice call is total and only ever returns a string — with an
absent or empty credential it returns the fixed no-key fallback whatever
the (never attempted) call would have produced, and with a credential a
failed call is caught and mapped to the fixed offline fallback while a
successful call returns its text. -/
theorem analyzeSchedule_total_fallbacks (tasks : List Task) (date : String)
    (k : Option String) (r : Except String String) (e : String)
    (hk : apiKeyTruthy k = true) :
    analyzeSchedule Option.none tasks date r = noKeyMsg ∧
    analyzeSchedule (Option.some "") tasks date r = noKeyMsg ∧
    analyzeSchedule k tasks date (Except.error e) = offlineMsg ∧
    (∀ text : String, analyzeSchedule k tasks date (Except.ok text) = text) := by
  refine ⟨rfl, by simp [analyzeSchedule, apiKeyTruthy], ?_, fun text => ?_⟩ <;>
    simp [analyzeSchedule, hk]

/-- Witness for C8 at a concrete credential and call outcome. -/
theorem analyzeSchedule_total_fallbacks_witness :
    apiKeyTruthy (Option.some "key") = true ∧
    (analyzeSchedule Option.none [] "2024-01-01" (Except.ok "hi") = noKeyMsg ∧
     analyzeSchedule (Option.some "") [] "2024-01-01" (Except.ok "hi") = noKeyMsg ∧
     analyzeSchedule (Option.some "key") [] "2024-01-01" (Except.error "boom") = offlineMsg ∧
     (∀ text : String,
       analyzeSchedule (Option.some "key") [] "2024-01-01" (Except.ok text) = text)) :=
  ⟨by decide, analyzeSchedule_total_fallbacks [] "2024-01-01" (Option.some "key")
    (Except.ok "hi") "boom" (by decide)⟩

/-- Unfolding the xp component of the stats record. -/
theorem statsOf_xp (tasks : List Task) (habits : List Habit) (last7 : List String) :
    (statsOf tasks habits last7).xp
      = (tasks.filter (fun t => t.status = Status.completed)).length * 25
        + (habits.foldl (fun acc h => acc + trueCnt h.history) 0) * 10 := rfl

/-- Folding `acc + f h` over a list is the initial value plus the sum of
the images. -/
theorem foldl_add_eq_sum {α : Type} (f : α → Nat) (l : List α) (n : Nat) :
    l.foldl (fun acc h => acc + f h) n = n + (l.map f).sum := by
  induction l generalizing n with
  | nil => simp
  | cons h t ih => simp [ih, Nat.add_assoc]

/-- The number of `true` values of a history record equals the number of
its entries whose value is `true`. -/
theorem trueCnt_eq_filter_len (l : List (String × Bool)) :
    trueCnt l = (l.filter (fun e => e.2 = true)).length := by
  rw [trueCnt, ← List.countP_eq_length_filter, ← List.countP_eq_length_filter,
    List.countP_map]
  refine List.countP_congr (fun e _ => ?_)
  obtain ⟨k, b⟩ := e
  cases b <;> simp

/-- A toggle that matches no id leaves the list unchanged. -/
theorem toggle_no_match (rest : List Task) (i : String)
    (h : ∀ u ∈ rest, ¬ u.id = i) : toggleTaskStatus rest i = rest := by
  induction rest with
  | nil => rfl
  | cons u t ih =>
    have hu : ¬ u.id = i := h u (by simp)
    simp only [toggleTaskStatus, List.map_cons] at *
    rw [if_neg hu, ih (fun v hv => h v (by simp [hv]))]

/-- Toggling the unique task with the target id, when that task is
completed, lowers the completed count by exactly one. -/
theorem toggle_completed_count (tasks : List Task) (i : String) (t : Task)
    (h1 : tasks.filter (fun u => u.id = i) = [t])
    (h2 : t.status = Status.completed) :
    ((toggleTaskStatus tasks i).filter (fun u => u.status = Status.completed)).length + 1
      = (tasks.filter (fun u => u.status = Status.completed)).length := by
  induction tasks with
  | nil => simp at h1
  | cons u rest ih =>
    by_cases hid : u.id = i
    · rw [List.filter_cons_of_pos (by simp [hid])] at h1
      obtain ⟨hu, hrest⟩ := List.cons_eq_cons.mp h1
      subst hu
      have hnone : ∀ v ∈ rest, ¬ v.id = i := fun v hv => by
        simpa using (List.filter_eq_nil_iff.mp hrest) v hv
      have hrest' : toggleTaskStatus rest i = rest := toggle_no_match rest i hnone
      simp only [toggleTaskStatus, List.map_cons, if_pos hid]
      rw [List.filter_cons_of_neg (by simp [h2]), List.filter_cons_of_pos (by simp [h2])]
      rw [show (rest.map (fun t => if t.id = i then
            { t with status := if t.status = Status.completed then Status.pending
                               else Status.completed } else t)) = rest from hrest']
      simp
    · rw [List.filter_cons_of_neg (by simp [hid])] at h1
      have ih2 := ih h1
      simp only [toggleTaskStatus, List.map_cons, if_neg hid]
      by_cases hc : u.status = Status.completed
      · rw [List.filter_cons_of_pos (by simp [hc]), List.filter_cons_of_pos (by simp [hc])]
        simp only [List.length_cons]
        simp only [toggleTaskStatus] at ih2
        omega
      · rw [List.filter_cons_of_neg (by simp [hc]), List.filter_cons_of_neg (by simp [hc])]
        simpa [toggleTaskStatus] using ih2

/-- C2: the computed xp is exactly `25 × completedCount +
10 × trueHistoryEntryCount`, and toggling the (unique) completed task
with the target id back to pending recomputes xp with no residue: it
drops by exactly 25. -/
theorem xp_formula_and_toggle_recompute (tasks : List Task) (habits : List Habit)
    (last7 : List String) (i : String) (t : Task)
    (h1 : tasks.filter (fun u => u.id = i) = [t])
    (h2 : t.status = Status.completed) :
    (∀ (ts : List Task) (hs : List Habit) (w : List String),
      (statsOf ts hs w).xp
        = 25 * ts.countP (fun u => u.status = Status.completed)
          + 10 * (hs.map (fun h => (h.history.filter (fun e => e.2 = true)).length)).sum) ∧
    (statsOf (toggleTaskStatus tasks i) habits last7).xp + 25
        = (statsOf tasks habits last7).xp := by
  constructor
  · intro ts hs w
    rw [statsOf_xp, foldl_add_eq_sum, List.countP_eq_length_filter]
    have hmap : hs.map (fun h => trueCnt h.history)
        = hs.map (fun h => (h.history.filter (fun e => e.2 = true)).length) :=
      List.map_congr_left (fun h _ => trueCnt_eq_filter_len h.history)
    rw [hmap]
    ring
  · rw [statsOf_xp, statsOf_xp]
    have hc := toggle_completed_count tasks i t h1 h2
    omega

/-- A concrete completed task (the sample task, completed). -/
def doneTask : Task :=
  { runTask with status := Status.completed }

/-- A concrete habit with one checked day. -/
def stretchHabit : Habit :=
  { id := "h1", name := "Stretch", history := [("2024-01-01", true)],
    createdAt := "2024-01-01" }

/-- Witness for C2: one completed task and one habit with one checked
day. -/
theorem xp_formula_and_toggle_recompute_witness :
    ([doneTask].filter (fun u => u.id = "a1") = [doneTask]) ∧
    doneTask.status = Status.completed ∧
    ((statsOf [doneTask] [stretchHabit] ["2024-01-01"]).xp
        = 25 * ([doneTask].countP (fun u => u.status = Status.completed))
          + 10 * (([stretchHabit] : List Habit).map
              (fun h => (h.history.filter (fun e => e.2 = true)).length)).sum ∧
     (statsOf (toggleTaskStatus [doneTask] "a1") [stretchHabit] ["2024-01-01"]).xp + 25
        = (statsOf [doneTask] [stretchHabit] ["2024-01-01"]).xp) :=
  ⟨by simp [doneTask, runTask], rfl,
    (xp_formula_and_toggle_recompute [doneTask] [stretchHabit] ["2024-01-01"] "a1" doneTask
      (by simp [doneTask, runTask]) rfl).1 [doneTask] [stretchHabit] ["2024-01-01"],
    (xp_formula_and_toggle_recompute [doneTask] [stretchHabit] ["2024-01-01"] "a1" doneTask
      (by simp [doneTask, runTask]) rfl).2⟩

/-- One fold step moves the accumulator by at least 0 and at most 1: the
added day ratio has a numerator of done units bounded by its denominator
of total units. -/
theorem consistencyStep_bounds (tasks : List Task) (habits : List Habit)
    (acc : ℚ) (date : String) :
    acc ≤ consistencyStep tasks habits acc date ∧
    consistencyStep tasks habits acc date ≤ acc + 1 := by
  simp only [consistencyStep]
  by_cases h : (tasks.filter (fun t => t.date = date)).length + habits.length = 0
  · simp [h]
  · rw [if_neg h]
    have hpos : (0 : ℚ) < ((tasks.filter (fun t => t.date = date)).length : ℚ)
        + (habits.length : ℚ) := by
      have := Nat.pos_of_ne_zero h
      push_cast
      exact_mod_cast this
    have h1 := List.length_filter_le (fun t => decide (t.status = Status.completed))
      (tasks.filter (fun t => t.date = date))
    have h2 := List.length_filter_le (fun h => histGet h.history date) habits
    have hle : (((tasks.filter (fun t => t.date = date)).filter
          (fun t => t.status = Status.completed)).length : ℚ)
        + ((habits.filter (fun h => histGet h.history date)).length : ℚ)
        ≤ ((tasks.filter (fun t => t.date = date)).length : ℚ) + (habits.length : ℚ) := by
      exact_mod_cast Nat.add_le_add h1 h2
    have hnum : (0 : ℚ) ≤ (((tasks.filter (fun t => t.date = date)).filter
          (fun t => t.status = Status.completed)).length : ℚ)
        + ((habits.filter (fun h => histGet h.history date)).length : ℚ) := by positivity
    constructor
    · have := div_nonneg hnum (le_of_lt hpos)
      linarith
    · have := (div_le_one hpos).mpr hle
      linarith

/-- Folding the day contributions keeps the sum between the initial value
and the initial value plus the number of days. -/
theorem consistency_foldl_bounds (tasks : List Task) (habits : List Habit)
    (l : List String) (acc : ℚ) :
    acc ≤ l.foldl (consistencyStep tasks habits) acc ∧
    l.foldl (consistencyStep tasks habits) acc ≤ acc + l.length := by
  induction l generalizing acc with
  | nil => simp
  | cons d rest ih =>
    have hstep := consistencyStep_bounds tasks habits acc d
    have hrec := ih (consistencyStep tasks habits acc d)
    rw [List.foldl_cons]
    constructor
    · linarith [hstep.1, hrec.1]
    · have hlen : ((d :: rest).length : ℚ) = (rest.length : ℚ) + 1 := by
        push_cast [List.length_cons]
        ring
      rw [hlen]
      linarith [hstep.2, hrec.2]

/-- A day with no tasks and no habits contributes nothing. -/
theorem consistencyStep_empty (tasks : List Task) (acc : ℚ) (d : String)
    (hd : tasks.filter (fun t => t.date = d) = []) :
    consistencyStep tasks [] acc d = acc := by
  simp [consistencyStep, hd]

/-- With no habits and no tasks on any day of the window, the fold stays
at its initial value. -/
theorem consistency_foldl_empty (tasks : List Task) (l : List String) (acc : ℚ)
    (h : ∀ d ∈ l, tasks.filter (fun t => t.date = d) = []) :
    l.foldl (consistencyStep tasks []) acc = acc := by
  induction l generalizing acc with
  | nil => rfl
  | cons d rest ih =>
    rw [List.foldl_cons, consistencyStep_empty tasks acc d (h d (by simp)),
      ih _ (fun d' hd' => h d' (by simp [hd']))]

/-- C3: the life score always lies in [0, 100]; with an empty habit
collection and no tasks on any day of the 7-day window it is 0. -/
theorem lifeScore_bounds_and_empty_zero (tasks : List Task) (habits : List Habit)
    (last7 : List String) (h7 : last7.length = 7) :
    (0 ≤ (statsOf tasks habits last7).lifeScore ∧
      (statsOf tasks habits last7).lifeScore ≤ 100) ∧
    (habits = [] → (∀ d ∈ last7, tasks.filter (fun t => t.date = d) = []) →
      (statsOf tasks habits last7).lifeScore = 0) := by
  have hLS : (statsOf tasks habits last7).lifeScore
      = jsRound (consistencySumOf tasks habits last7 / 7 * 100) := rfl
  constructor
  · obtain ⟨hlo, hhi⟩ := consistency_foldl_bounds tasks habits last7 0
    rw [consistencySumOf] at hLS
    rw [h7] at hhi
    set S := last7.foldl (consistencyStep tasks habits) 0 with hS
    rw [hLS, jsRound]
    have hS0 : (0 : ℚ) ≤ S := by simpa using hlo
    have hS7 : S ≤ 7 := by simpa using hhi
    have hdiv : S / 7 ≤ 1 := (div_le_one (by norm_num)).mpr hS7
    have hdiv0 : (0 : ℚ) ≤ S / 7 := by positivity
    constructor
    · apply Int.le_floor.mpr
      push_cast
      nlinarith
    · have hfl : ⌊S / 7 * 100 + 1 / 2⌋ < (101 : ℤ) := by
        apply Int.floor_lt.mpr
        push_cast
        nlinarith
      omega
  · intro hhab hdays
    subst hhab
    rw [hLS, consistencySumOf, consistency_foldl_empty tasks last7 0 hdays]
    rw [jsRound]
    rw [show (0 : ℚ) / 7 * 100 + 1 / 2 = 1 / 2 by ring]
    rw [Int.floor_eq_iff] <;> norm_num

/-- The concrete 7-day window used by the closed scenarios. -/
def winDates : List String :=
  ["2024-01-01", "2024-01-02", "2024-01-03", "2024-01-04",
   "2024-01-05", "2024-01-06", "2024-01-07"]

/-- Witness for C3 at the empty state over a concrete window. -/
theorem lifeScore_bounds_and_empty_zero_witness :
    winDates.length = 7 ∧
    (0 ≤ (statsOf [] [] winDates).lifeScore ∧
      (statsOf [] [] winDates).lifeScore ≤ 100) ∧
    (statsOf [] [] winDates).lifeScore = 0 := by
  have h := lifeScore_bounds_and_empty_zero [] [] winDates rfl
  exact ⟨rfl, h.1, h.2 rfl (by simp)⟩

/-- Three completed tasks on the first three days of the window. -/
def scenTasks : List Task :=
  [{ runTask with id := "s1", date := "2024-01-01", status := Status.completed },
   { runTask with id := "s2", date := "2024-01-02", status := Status.completed },
   { runTask with id := "s3", date := "2024-01-03", status := Status.completed }]

/-- C5: with exactly 3 window days holding one completed task each, the
other 4 days empty, and no habits, the life score is
`round(100 × 3/7) = 43`. -/
theorem lifeScore_three_of_seven_scenario :
    (statsOf scenTasks [] winDates).lifeScore = jsRound (100 * (3 / 7)) ∧
    (statsOf scenTasks [] winDates).lifeScore = 43 := by
  have hsum : consistencySumOf scenTasks [] winDates = 3 := by
    simp [consistencySumOf, winDates, consistencyStep, scenTasks, runTask]
    norm_num
  have hLS : (statsOf scenTasks [] winDates).lifeScore
      = jsRound (consistencySumOf scenTasks [] winDates / 7 * 100) := rfl
  rw [hLS, hsum]
  have h43 : jsRound ((3 : ℚ) / 7 * 100) = 43 := by
    rw [jsRound, Int.floor_eq_iff] <;> norm_num
  constructor
  · rw [show (100 : ℚ) * (3 / 7) = 3 / 7 * 100 by ring]
  · exact h43

/-- Appending an explicit `false` entry never changes the truthy read of
any date: a key found earlier wins, the new key reads `false`, and a
missing key reads `undefined`, which is also falsy. -/
theorem histGet_append_false (l : List (String × Bool)) (d d' : String) :
    histGet (l ++ [(d, false)]) d' = histGet l d' := by
  induction l with
  | nil =>
    by_cases h : d' = d
    · simp [histGet, List.lookup_cons, h]
    · simp [histGet, List.lookup_cons, show (d' == d) = false from by simp [h]]
  | cons p rest ih =>
    obtain ⟨k, b⟩ := p
    by_cases h : d' = k
    · simp [histGet, List.lookup_cons, h]
    · simp only [histGet, List.cons_append, List.lookup_cons,
        show (d' == k) = false from by simp [h]]
      simpa [histGet] using ih

/-- Appending an explicit `false` entry does not change the number of
`true` entries. -/
theorem trueCnt_append_false (l : List (String × Bool)) (d : String) :
    trueCnt (l ++ [(d, false)]) = trueCnt l := by
  simp [trueCnt]

/-- The `completedHabits` fold is unchanged by adding a `false` entry to
one habit's history. -/
theorem completedHabits_append_false (hs1 hs2 : List Habit) (h : Habit) (d : String) :
    (hs1 ++ { h with history := h.history ++ [(d, false)] } :: hs2).foldl
        (fun acc hh => acc + trueCnt hh.history) 0
      = (hs1 ++ h :: hs2).foldl (fun acc hh => acc + trueCnt hh.history) 0 := by
  rw [foldl_add_eq_sum, foldl_add_eq_sum]
  simp [trueCnt_append_false]

/-- The per-day count of done habits is unchanged by adding a `false`
entry to one habit's history. -/
theorem habitsDone_append_false (hs1 hs2 : List Habit) (h : Habit) (d date : String) :
    ((hs1 ++ { h with history := h.history ++ [(d, false)] } :: hs2).filter
        (fun hh => histGet hh.history date)).length
      = ((hs1 ++ h :: hs2).filter (fun hh => histGet hh.history date)).length := by
  simp only [List.filter_append, List.filter_cons, histGet_append_false,
    List.length_append]
  split <;> simp

/-- C6: replacing an absent history entry by an explicit `false` entry
(or vice versa) changes no score computation: the whole stats record
(xp, level, life score) and the day completion percentage agree. -/
theorem absent_history_eq_false_entry (tasks : List Task) (hs1 hs2 : List Habit)
    (h : Habit) (d : String) (last7 : List String) (selectedDate : String)
    (hab : h.history.lookup d = Option.none) :
    statsOf tasks (hs1 ++ { h with history := h.history ++ [(d, false)] } :: hs2) last7
      = statsOf tasks (hs1 ++ h :: hs2) last7 ∧
    dayCompletion tasks (hs1 ++ { h with history := h.history ++ [(d, false)] } :: hs2)
        selectedDate
      = dayCompletion tasks (hs1 ++ h :: hs2) selectedDate := by
  have hlen : (hs1 ++ { h with history := h.history ++ [(d, false)] } :: hs2).length
      = (hs1 ++ h :: hs2).length := by simp
  have hdone := habitsDone_append_false hs1 hs2 h d
  have hch := completedHabits_append_false hs1 hs2 h d
  have hstep : ∀ acc date,
      consistencyStep tasks (hs1 ++ { h with history := h.history ++ [(d, false)] } :: hs2)
          acc date
        = consistencyStep tasks (hs1 ++ h :: hs2) acc date := by
    intro acc date
    simp only [consistencyStep, hlen, hdone]
  have hsum : consistencySumOf tasks
        (hs1 ++ { h with history := h.history ++ [(d, false)] } :: hs2) last7
      = consistencySumOf tasks (hs1 ++ h :: hs2) last7 := by
    rw [consistencySumOf, consistencySumOf]
    exact List.foldl_ext _ _ 0 (fun acc dt _ => hstep acc dt)
  constructor
  · simp only [statsOf, hch, hsum]
  · simp only [dayCompletion, filteredTasksOf, hlen, hdone]

/-- Witness for C6 at a concrete habit and date. -/
theorem absent_history_eq_false_entry_witness :
    (stretchHabit.history.lookup "2024-01-02" = Option.none) ∧
    (statsOf [doneTask]
        [{ stretchHabit with
            history := stretchHabit.history ++ [("2024-01-02", false)] }] winDates
      = statsOf [doneTask] [stretchHabit] winDates ∧
    dayCompletion [doneTask]
        [{ stretchHabit with
            history := stretchHabit.history ++ [("2024-01-02", false)] }] "2024-01-01"
      = dayCompletion [doneTask] [stretchHabit] "2024-01-01") :=
  ⟨by decide,
    absent_history_eq_false_entry [doneTask] [] [] stretchHabit "2024-01-02"
      winDates "2024-01-01" (by decide)⟩

end Planora
